import Mathlib

/-
Shallow embedding of `pr2_mechanism_model/src/robot.cpp` (the mechanism-model
engine of the pr2_mechanism repository): `Robot::initXml`, the name-based
lookup helpers, and the `RobotState` per-cycle aggregate.  External
collaborators (the URDF parser, the pluginlib class loader and the hardware
interface) are modelled at their interface boundary exactly as robot.cpp
observes them.
-/

namespace Pr2MechanismModel

/-- Raw actuator state owned by the hardware collaborator.  robot.cpp only
reads `state_.halted_` (in `RobotState::isHalted`); the numeric fields stand
for the remaining measured quantities. -/
structure ActuatorState where
  halted_ : Bool
  position_ : Int
  last_measured_effort_ : Int
deriving DecidableEq

/-- An actuator as exposed by `pr2_hardware_interface`: a name and its raw
state.  `transmissions_in_` holds references to these. -/
structure Actuator where
  name_ : String
  state_ : ActuatorState
deriving DecidableEq

/-- A configured transmission: its name and the ordered actuator / joint name
lists it declares (`Transmission::name_`, `actuator_names_`, `joint_names_`).
The four propagation operations are not needed by any claim and are omitted. -/
structure Transmission where
  name_ : String
  actuator_names_ : List String
  joint_names_ : List String
deriving DecidableEq, Inhabited

/-- The kinematic model produced by `urdf::Model` parsing, observed by
robot.cpp only through `getJoint(name)`; modelled as the set of joint names it
contains, with the joint descriptor identified by its name. -/
structure UrdfModel where
  joints_ : List String
deriving DecidableEq

/-- Lookup of a joint descriptor in the parsed URDF model
(`robot_model_.getJoint(name)` in `RobotState::RobotState`); `none` models the
null pointer returned for an unknown joint. -/
def UrdfModel.getJoint (u : UrdfModel) (name : String) : Option String :=
  if name ∈ u.joints_ then some name else none

/-- The hardware collaborator: it owns the actuator storage and exposes
`getActuator(name)`. -/
structure HardwareInterface where
  actuators_ : List Actuator
deriving DecidableEq

/-- Hardware-side actuator lookup (`hw_->getActuator(name)`); returns the null
sentinel when the name is unknown. -/
def HardwareInterface.getActuator (h : HardwareInterface) (name : String) : Option Actuator :=
  h.actuators_.find? (fun a => a.name_ == name)

/-- The `Robot` model of robot.cpp: the hardware handle received by the
constructor (a possibly-null pointer, hence `Option`), the parsed kinematic
model, and the transmission list filled in by `initXml`. -/
structure Robot where
  hw_ : Option HardwareInterface
  robot_model_ : UrdfModel
  transmissions_ : List Transmission
deriving DecidableEq

/-- `Robot::getActuator`: delegates to the hardware interface; a null `hw_`
yields the null sentinel. -/
def Robot.getActuator (r : Robot) (name : String) : Option Actuator :=
  match r.hw_ with
  | none => none
  | some h => h.getActuator name

/-- One `<transmission>` element of the description document: its optional
`type` attribute and an opaque handle to its type-specific configuration
block (consumed only by the loaded instance's own `initXml`). -/
structure TransElem where
  ty : Option String
  cfg : Nat
deriving DecidableEq

/-- The exception kinds `Robot::initXml` catches around
`transmission_loader.createClassInstance`. -/
inductive PluginError where
  | libraryLoad (what : String)
  | createClass (what : String)
  | other
deriving DecidableEq

/-- Behaviour of the pluginlib class loader on one type string: it either
throws, or produces a fresh instance whose own `initXml` (a function of the
element's configuration block) yields a configured transmission or fails. -/
inductive LoadOutcome where
  | throws (e : PluginError)
  | created (instInit : Nat → Option Transmission)

/-- True exactly when the loader throws on this type string (the type cannot
be resolved or instantiated). -/
def LoadOutcome.isThrows : LoadOutcome → Bool
  | .throws _ => true
  | .created _ => false

/-- The ways `Robot::initXml` returns `false`, each mirroring one `ROS_ERROR`
site in robot.cpp. -/
inductive InitError where
  | invalidHardware
  | urdfParseFailed
  | libraryLoadException (ty : String) (what : String)
  | createClassException (ty : String) (what : String)
  | otherException (ty : String)
deriving DecidableEq

/-- The transmission type string a fatal error message identifies, when it
identifies one (the `%s` argument of the corresponding `ROS_ERROR`). -/
def InitError.errorType : InitError → Option String
  | .libraryLoadException ty _ => some ty
  | .createClassException ty _ => some ty
  | .otherException ty => some ty
  | .invalidHardware => none
  | .urdfParseFailed => none

/-- The description document as `Robot::initXml` consumes it: the outcome of
`robot_model_.initXml(root)` (`none` models URDF parse failure) together with
the list of `<transmission>` child elements in document order. -/
structure RobotDescription where
  urdfResult : Option UrdfModel
  transmissionElems : List TransElem

/-- The transmission-construction loop of `Robot::initXml` (robot.cpp lines
68-102): a missing `type` attribute gives a null instance, which is logged and
skipped; a loader exception aborts with the corresponding fatal error; an
instance whose own `initXml` fails is deleted and skipped; a successfully
configured instance is appended. -/
def buildTransmissions (loader : String → LoadOutcome) :
    List TransElem → Except InitError (List Transmission)
  | [] => .ok []
  | e :: rest =>
    match e.ty with
    | none => buildTransmissions loader rest
    | some ty =>
      match loader ty with
      | .throws (.libraryLoad w) => .error (.libraryLoadException ty w)
      | .throws (.createClass w) => .error (.createClassException ty w)
      | .throws .other => .error (.otherException ty)
      | .created instInit =>
        match instInit e.cfg with
        | none => buildTransmissions loader rest
        | some t => (buildTransmissions loader rest).map (t :: ·)

/-- `Robot::initXml` (robot.cpp lines 51-105): fails fatally on a null
hardware handle, then on URDF parse failure, then runs the transmission loop;
on success the robot holds the surviving transmissions in document order. -/
def Robot.initXml (loader : String → LoadOutcome) (hw : Option HardwareInterface)
    (root : RobotDescription) : Except InitError Robot :=
  match hw with
  | none => .error .invalidHardware
  | some h =>
    match root.urdfResult with
    | none => .error .urdfParseFailed
    | some urdf =>
      (buildTransmissions loader root.transmissionElems).map fun ts =>
        { hw_ := some h, robot_model_ := urdf, transmissions_ := ts }

/-- The transmissions that survive the `initXml` loop when no element makes
the loader throw: exactly those whose element has a `type` attribute, the
loader creates an instance, and the instance's own `initXml` succeeds. -/
def keptTransmissions (loader : String → LoadOutcome) (es : List TransElem) :
    List Transmission :=
  es.filterMap fun e =>
    e.ty.bind fun ty =>
      match loader ty with
      | .throws _ => none
      | .created instInit => instInit e.cfg

/-- The linear scan `findIndexByName` (robot.cpp lines 112-121), carrying the
running index: returns the index of the first transmission whose `name_`
matches, and `-1` when none does. -/
def findIndexByName : Nat → List Transmission → String → Int
  | _, [], _ => -1
  | i, t :: rest, name =>
    if t.name_ = name then Int.ofNat i else findIndexByName (i + 1) rest name

/-- `Robot::getTransmissionIndex` (robot.cpp lines 123-126). -/
def Robot.getTransmissionIndex (r : Robot) (name : String) : Int :=
  findIndexByName 0 r.transmissions_ name

/-- `Robot::getTransmission` (robot.cpp lines 133-137): index lookup followed
by `i >= 0 ? transmissions_[i] : NULL`. -/
def Robot.getTransmission (r : Robot) (name : String) : Option Transmission :=
  let i := r.getTransmissionIndex name
  if 0 ≤ i then some (r.transmissions_.getD i.toNat default) else none

/-- One joint-state slot of the per-cycle aggregate.  `joint_` is the backing
URDF joint descriptor (null when `getJoint` found none); the numeric fields
are those robot.cpp reads or writes, with the statistics accumulator kept
abstract. -/
structure JointState where
  joint_ : Option String
  position_ : Int
  velocity_ : Int
  measured_effort_ : Int
  commanded_effort_ : Int
  joint_statistics_ : Int
deriving DecidableEq

/-- A default-constructed `JointState`, as produced by
`joint_states_.resize(js_size)`. -/
def defaultJointState : JointState :=
  { joint_ := none, position_ := 0, velocity_ := 0, measured_effort_ := 0
  , commanded_effort_ := 0, joint_statistics_ := 0 }

/-- All joint names declared by the model's transmissions, flattened in
transmission-then-joint declaration order: the allocation order of
joint-state slots (`js_id` order in `RobotState::RobotState`). -/
def flatJointNames (r : Robot) : List String :=
  r.transmissions_.flatMap (·.joint_names_)

/-- Resolution of one transmission's declared actuator names through
`model_->getActuator`, with `assert(act != NULL)`: any unresolvable name
aborts (returns `none`). -/
def resolveActuators (r : Robot) : List String → Option (List Actuator)
  | [] => some []
  | n :: rest =>
    match r.getActuator n with
    | none => none
    | some a => (resolveActuators r rest).map (a :: ·)

/-- The first constructor loop of `RobotState::RobotState` (lines 153-163):
row i of `transmissions_in_` is transmission i's resolved actuator list. -/
def buildTransIn (r : Robot) : List Transmission → Option (List (List Actuator))
  | [] => some []
  | t :: rest =>
    match resolveActuators r t.actuator_names_ with
    | none => none
    | some as => (buildTransIn r rest).map (as :: ·)

/-- Row i of `transmissions_out_` as built by the second constructor loop
(lines 168-178): the global `js_id` indices handed to transmission i, i.e.
the pointers into `joint_states_` modelled as indices. -/
def outIndices : Nat → List Transmission → List (List Nat)
  | _, [] => []
  | off, t :: rest =>
    (List.range t.joint_names_.length).map (· + off) ::
      outIndices (off + t.joint_names_.length) rest

/-- The insertion sequence of `joint_states_map_[name] = &joint_states_[js_id]`
in slot order: one `(name, slot index)` pair per declared joint name, starting
at the given offset. -/
def enumPairs : Nat → List String → List (String × Nat)
  | _, [] => []
  | i, n :: rest => (n, i) :: enumPairs (i + 1) rest

/-- Lookup in an insertion-ordered binding list with `std::map` overwrite
semantics: `operator[]` rebinds an existing key, so a lookup observes the
most recent (last) binding of the name. -/
def lookupLast (pairs : List (String × Nat)) (name : String) : Option Nat :=
  match pairs with
  | [] => none
  | (k, v) :: rest =>
    match lookupLast rest name with
    | some r => some r
    | none => if k == name then some v else none

/-- The per-cycle aggregate `RobotState`: the backing model, the joint-state
storage, the two wiring tables (`transmissions_out_` rows hold indices into
`joint_states_`, modelling the `JointState*` pointers), and the name map's
insertion sequence. -/
structure RobotState where
  model_ : Robot
  joint_states_ : List JointState
  transmissions_in_ : List (List Actuator)
  transmissions_out_ : List (List Nat)
  joint_states_map_ : List (String × Nat)
deriving DecidableEq

/-- The `RobotState` constructor (robot.cpp lines 143-185): resolve every
declared actuator name (asserting success), size `joint_states_` to the sum
of declared joint counts, set each slot's backing joint descriptor, record
the name-map insertions and the out-wiring rows in declaration order.  `none`
models an `assert(act != NULL)` failure. -/
def RobotState.build (model : Robot) : Option RobotState :=
  match buildTransIn model model.transmissions_ with
  | none => none
  | some tin =>
    let flat := flatJointNames model
    some
      { model_ := model
      , joint_states_ := flat.map fun n =>
          { defaultJointState with joint_ := model.robot_model_.getJoint n }
      , transmissions_in_ := tin
      , transmissions_out_ := outIndices 0 model.transmissions_
      , joint_states_map_ := enumPairs 0 flat }

/-- `RobotState::getJointState` (robot.cpp lines 188-195): name-map lookup
returning the bound joint-state slot (as its index into `joint_states_`,
standing for the stored pointer) or the null sentinel. -/
def RobotState.getJointState (rs : RobotState) (name : String) : Option Nat :=
  lookupLast rs.joint_states_map_ name

/-- `RobotState::isHalted` (robot.cpp lines 229-239): true when any actuator
bound in any `transmissions_in_` row has its halted flag set. -/
def RobotState.isHalted (rs : RobotState) : Bool :=
  rs.transmissions_in_.any fun row => row.any fun a => a.state_.halted_

/-- `RobotState::zeroCommands` (robot.cpp lines 249-253): set every joint
state's commanded effort to zero. -/
def RobotState.zeroCommands (rs : RobotState) : RobotState :=
  { rs with
    joint_states_ := rs.joint_states_.map fun j => { j with commanded_effort_ := 0 } }

/-- Whether `Robot::initXml` reported construction failure (returned false). -/
def initFailed : Except InitError Robot → Bool
  | .error _ => true
  | .ok _ => false

/-- The transmission type string identified by the fatal error of a failed
`Robot::initXml`, if any. -/
def initErrorType : Except InitError Robot → Option String
  | .error e => e.errorType
  | .ok _ => none

/-- The `type` attribute of the first `<transmission>` element, in document
order, on which the loader throws; the construction loop aborts at exactly
this element. -/
def firstThrowingType (loader : String → LoadOutcome) : List TransElem → Option String
  | [] => none
  | e :: rest =>
    match e.ty with
    | none => firstThrowingType loader rest
    | some ty =>
      match loader ty with
      | .throws _ => some ty
      | .created _ => firstThrowingType loader rest

/-- Index of the last occurrence of a name in a list, the position the
overwriting name map ends up bound to. -/
def lastIdxOf? (name : String) : List String → Option Nat
  | [] => none
  | n :: rest =>
    match lastIdxOf? name rest with
    | some r => some (r + 1)
    | none => if n == name then some 0 else none

/-- Concrete hardware interface used to instantiate the theorems: two
actuators, the second halted. -/
def sampleHw : HardwareInterface :=
  ⟨[⟨"act1", ⟨false, 0, 0⟩⟩, ⟨"act2", ⟨true, 0, 0⟩⟩]⟩

/-- Concrete URDF model with two joints. -/
def sampleUrdf : UrdfModel := ⟨["joint1", "joint2"]⟩

/-- Concrete robot with two transmissions; the second re-declares `joint1`,
exercising the joint-name collision path. -/
def sampleRobot : Robot :=
  ⟨some sampleHw, sampleUrdf,
    [⟨"transA", ["act1"], ["joint1"]⟩, ⟨"transB", ["act2"], ["joint2", "joint1"]⟩]⟩

/-- Concrete robot with two transmissions sharing the name `dup`. -/
def dupRobot : Robot :=
  ⟨some sampleHw, sampleUrdf,
    [⟨"dup", ["act1"], ["joint1"]⟩, ⟨"dup", ["act2"], ["joint2"]⟩]⟩

/-- Concrete robot with an empty transmission list. -/
def emptyRobot : Robot := ⟨some sampleHw, sampleUrdf, []⟩

/-- Placeholder aggregate used only as the `Option.getD` default below. -/
def fallbackState : RobotState := ⟨sampleRobot, [], [], [], []⟩

/-- The aggregate actually built from `sampleRobot`. -/
def sampleState : RobotState := (RobotState.build sampleRobot).getD fallbackState

/-- The aggregate actually built from `dupRobot`. -/
def dupState : RobotState := (RobotState.build dupRobot).getD fallbackState

/-- The aggregate actually built from `emptyRobot`. -/
def emptyState : RobotState := (RobotState.build emptyRobot).getD fallbackState

/-- Loader that throws on every type string (no type resolvable). -/
def throwingLoader : String → LoadOutcome := fun _ => .throws .other

/-- Loader resolving `good` to a transmission whose configuration parsing
succeeds and `bad` to one whose configuration parsing fails; every other
type throws. -/
def mixedLoader : String → LoadOutcome := fun s =>
  if s = "good" then .created (fun _ => some ⟨"transA", ["act1"], ["joint1"]⟩)
  else if s = "bad" then .created (fun _ => none)
  else .throws .other

/-- Description document with a single transmission element of an
unresolvable type. -/
def badRoot : RobotDescription := ⟨some sampleUrdf, [⟨some "badtype", 0⟩]⟩

/-- Description document with one failing-configuration element between two
well-formed ones. -/
def mixedRoot : RobotDescription :=
  ⟨some sampleUrdf, [⟨some "good", 0⟩, ⟨some "bad", 1⟩, ⟨some "good", 2⟩]⟩

/-- When some element's declared type makes the loader throw, the first such
element exists, so `firstThrowingType` finds it. -/
theorem firstThrowingType_isSome (loader : String → LoadOutcome) (es : List TransElem)
    (hex : ∃ e ∈ es, ∃ s, e.ty = some s ∧ (loader s).isThrows = true) :
    (firstThrowingType loader es).isSome = true := by
  induction es with
  | nil =>
    rcases hex with ⟨e, he, _⟩
    simp at he
  | cons e rest ih =>
    rcases hex with ⟨e0, he0, s, hs, hth⟩
    rcases List.mem_cons.mp he0 with rfl | htail
    · cases hpe : loader s with
      | throws pe => simp [firstThrowingType, hs, hpe]
      | created instInit => rw [hpe] at hth; simp [LoadOutcome.isThrows] at hth
    · cases hty : e.ty with
      | none => simpa [firstThrowingType, hty] using ih ⟨e0, htail, s, hs, hth⟩
      | some ty =>
        cases hpe : loader ty with
        | throws pe => simp [firstThrowingType, hty, hpe]
        | created instInit =>
          simpa [firstThrowingType, hty, hpe] using ih ⟨e0, htail, s, hs, hth⟩

/-- Any type string `firstThrowingType` reports is the declared type of some
element of the document on which the loader throws. -/
theorem firstThrowingType_mem (loader : String → LoadOutcome) (es : List TransElem)
    (s : String) (h : firstThrowingType loader es = some s) :
    ∃ e ∈ es, e.ty = some s ∧ (loader s).isThrows = true := by
  induction es with
  | nil => simp [firstThrowingType] at h
  | cons e rest ih =>
    cases hty : e.ty with
    | none =>
      simp only [firstThrowingType, hty] at h
      obtain ⟨e0, he0, h1, h2⟩ := ih h
      exact ⟨e0, List.mem_cons_of_mem _ he0, h1, h2⟩
    | some ty =>
      cases hpe : loader ty with
      | throws pe =>
        simp only [firstThrowingType, hty, hpe, Option.some.injEq] at h
        subst h
        exact ⟨e, List.mem_cons_self _ _, hty, by rw [hpe]; rfl⟩
      | created instInit =>
        simp only [firstThrowingType, hty, hpe] at h
        obtain ⟨e0, he0, h1, h2⟩ := ih h
        exact ⟨e0, List.mem_cons_of_mem _ he0, h1, h2⟩

/-- The construction loop aborts exactly at the first element whose loader
throws, and the error it reports identifies that element's type string. -/
theorem buildTransmissions_error_of_throws (loader : String → LoadOutcome)
    (es : List TransElem) (s : String) (h : firstThrowingType loader es = some s) :
    ∃ err, buildTransmissions loader es = .error err ∧ err.errorType = some s := by
  induction es with
  | nil => simp [firstThrowingType] at h
  | cons e rest ih =>
    cases hty : e.ty with
    | none =>
      simp only [firstThrowingType, hty] at h
      simpa [buildTransmissions, hty] using ih h
    | some ty =>
      cases hpe : loader ty with
      | throws pe =>
        simp only [firstThrowingType, hty, hpe, Option.some.injEq] at h
        subst h
        cases pe with
        | libraryLoad w =>
          exact ⟨.libraryLoadException ty w, by simp [buildTransmissions, hty, hpe], rfl⟩
        | createClass w =>
          exact ⟨.createClassException ty w, by simp [buildTransmissions, hty, hpe], rfl⟩
        | other =>
          exact ⟨.otherException ty, by simp [buildTransmissions, hty, hpe], rfl⟩
      | created instInit =>
        simp only [firstThrowingType, hty, hpe] at h
        obtain ⟨err, herr, hty2⟩ := ih h
        cases hinit : instInit e.cfg with
        | none => exact ⟨err, by simp [buildTransmissions, hty, hpe, hinit, herr], hty2⟩
        | some t =>
          exact ⟨err, by simp [buildTransmissions, hty, hpe, hinit, herr, Except.map], hty2⟩

/-- When no element's declared type makes the loader throw, the loop succeeds
and keeps exactly the elements whose instance was created and configured. -/
theorem buildTransmissions_ok_of_no_throws (loader : String → LoadOutcome)
    (es : List TransElem)
    (hnt : ∀ e ∈ es, ∀ s, e.ty = some s → (loader s).isThrows = false) :
    buildTransmissions loader es = .ok (keptTransmissions loader es) := by
  induction es with
  | nil => rfl
  | cons e rest ih =>
    have hrest : ∀ e' ∈ rest, ∀ s, e'.ty = some s → (loader s).isThrows = false :=
      fun e' he' => hnt e' (List.mem_cons_of_mem _ he')
    rw [buildTransmissions, keptTransmissions, List.filterMap_cons]
    cases hty : e.ty with
    | none =>
      rw [keptTransmissions] at ih
      simpa [hty] using ih hrest
    | some ty =>
      cases hpe : loader ty with
      | throws pe =>
        have hcontra := hnt e (List.mem_cons_self _ _) ty hty
        rw [hpe] at hcontra
        simp [LoadOutcome.isThrows] at hcontra
      | created instInit =>
        rw [keptTransmissions] at ih
        cases hinit : instInit e.cfg with
        | none => simpa [hty, Option.bind, hpe, hinit] using ih hrest
        | some t => simp [hty, Option.bind, hpe, hinit, ih hrest, Except.map]

/-- C9: on a null hardware handle `Robot::initXml` fails immediately with the
invalid-hardware error, for every description document — in particular even
for documents that do not parse or whose transmissions would abort, showing
that neither the document parse nor the transmission loop contributes to the
outcome. -/
theorem initXml_null_hardware_fails (loader : String → LoadOutcome)
    (root : RobotDescription) :
    Robot.initXml loader none root = .error .invalidHardware := rfl

/-- C1: when a description document (with a usable hardware handle and a
parseable kinematic description) contains a transmission element whose
declared type string makes the loader throw (cannot be resolved), model
construction aborts with a fatal error, and the error identifies the type
string of the first such unresolvable element. -/
theorem initXml_unresolvable_type_aborts (loader : String → LoadOutcome)
    (h : HardwareInterface) (root : RobotDescription) (u : UrdfModel)
    (hu : root.urdfResult = some u)
    (hex : ∃ e ∈ root.transmissionElems, ∃ s, e.ty = some s ∧ (loader s).isThrows = true) :
    initFailed (Robot.initXml loader (some h) root) = true ∧
      initErrorType (Robot.initXml loader (some h) root) =
        firstThrowingType loader root.transmissionElems ∧
      (firstThrowingType loader root.transmissionElems).isSome = true := by
  have hsome := firstThrowingType_isSome loader root.transmissionElems hex
  obtain ⟨s, hs⟩ := Option.isSome_iff_exists.mp hsome
  obtain ⟨err, herr, htys⟩ := buildTransmissions_error_of_throws loader _ s hs
  have hx : Robot.initXml loader (some h) root = .error err := by
    rw [Robot.initXml, hu, herr]
    rfl
  refine ⟨by rw [hx]; rfl, ?_, hsome⟩
  rw [hx, hs]
  exact htys

/-- C2: when no element's type makes the loader throw, a resolved instance
whose own configuration parsing fails is discarded without being appended,
and `Robot::initXml` still succeeds, returning exactly the surviving
transmissions in document order. -/
theorem initXml_skips_failed_transmission_config (loader : String → LoadOutcome)
    (h : HardwareInterface) (root : RobotDescription) (u : UrdfModel)
    (hu : root.urdfResult = some u)
    (hnt : ∀ e ∈ root.transmissionElems, ∀ s, e.ty = some s → (loader s).isThrows = false) :
    Robot.initXml loader (some h) root =
      .ok { hw_ := some h, robot_model_ := u
          , transmissions_ := keptTransmissions loader root.transmissionElems } := by
  rw [Robot.initXml, hu, buildTransmissions_ok_of_no_throws loader _ hnt]
  rfl

/-- A name has no last occurrence exactly when it does not occur. -/
theorem lastIdxOf?_eq_none (name : String) (l : List String) :
    lastIdxOf? name l = none ↔ name ∉ l := by
  induction l with
  | nil => simp [lastIdxOf?]
  | cons n rest ih =>
    cases hrest : lastIdxOf? name rest with
    | some r =>
      have hmem : name ∈ rest := by
        by_contra hne
        simp [ih.mpr hne] at hrest
      simp [lastIdxOf?, hrest, List.mem_cons, hmem]
    | none =>
      have hnot : name ∉ rest := ih.mp hrest
      by_cases h : n = name
      · simp [lastIdxOf?, hrest, h]
      · have hb : (n == name) = false := by simpa using h
        simp [lastIdxOf?, hrest, hb, List.mem_cons, hnot]
        exact fun he => h he.symm

/-- With an index below the length, `getD` yields a member of the list. -/
theorem getD_mem_of_lt (l : List String) (j : Nat) (hj : j < l.length) :
    l.getD j "" ∈ l := by
  induction l generalizing j with
  | nil => simp at hj
  | cons n rest ih =>
    cases j with
    | zero => simp
    | succ j' =>
      simp only [List.getD_cons_succ]
      exact List.mem_cons_of_mem _ (ih j' (by simpa using hj))

/-- Characterization of the last occurrence of a name: it is an in-range
position holding the name with no later position holding it. -/
theorem lastIdxOf?_eq_some (name : String) (l : List String) (k : Nat) :
    lastIdxOf? name l = some k ↔
      k < l.length ∧ l.getD k "" = name ∧
        ∀ j, j < l.length → k < j → l.getD j "" ≠ name := by
  induction l generalizing k with
  | nil => simp [lastIdxOf?]
  | cons n rest ih =>
    cases hrest : lastIdxOf? name rest with
    | some r =>
      obtain ⟨hr1, hr2, hr3⟩ := (ih r).mp hrest
      simp only [lastIdxOf?, hrest]
      constructor
      · intro h
        injection h with h
        subst h
        refine ⟨by simpa using Nat.succ_lt_succ hr1, by simpa using hr2, ?_⟩
        intro j hj hlt
        cases j with
        | zero => omega
        | succ j' =>
          simpa using hr3 j' (by simpa using hj) (by omega)
      · rintro ⟨hk, hm, hl⟩
        cases k with
        | zero =>
          exfalso
          exact hl (r + 1) (by simpa using Nat.succ_lt_succ hr1) (Nat.succ_pos r)
            (by simpa using hr2)
        | succ k' =>
          have hk' : lastIdxOf? name rest = some k' := by
            apply (ih k').mpr
            refine ⟨by simpa using hk, by simpa using hm, ?_⟩
            intro j hj hlt
            simpa using hl (j + 1) (by simpa using Nat.succ_lt_succ hj) (by omega)
          rw [hrest] at hk'
          injection hk' with hk'
          rw [hk']
    | none =>
      have hnot : name ∉ rest := (lastIdxOf?_eq_none name rest).mp hrest
      have hnone : ∀ j, j < rest.length → rest.getD j "" ≠ name := by
        intro j hj he
        exact hnot (he ▸ getD_mem_of_lt rest j hj)
      by_cases h : n = name
      · simp only [lastIdxOf?, hrest, h]
        simp only [beq_self_eq_true, if_true]
        constructor
        · intro hs
          injection hs with hs
          subst hs
          refine ⟨by simp, by simp [h], ?_⟩
          intro j hj hlt
          cases j with
          | zero => omega
          | succ j' => simpa using hnone j' (by simpa using hj)
        · rintro ⟨hk, hm, hl⟩
          cases k with
          | zero => rfl
          | succ k' =>
            exfalso
            exact hnone k' (by simpa using hk) (by simpa using hm)
      · have hb : (n == name) = false := by simpa using h
        simp only [lastIdxOf?, hrest, hb, if_false]
        constructor
        · intro hs
          simp at hs
        · rintro ⟨hk, hm, hl⟩
          exfalso
          cases k with
          | zero => exact h (by simpa using hm)
          | succ k' => exact hnone k' (by simpa using hk) (by simpa using hm)

/-- The name map built by inserting `(name, slot)` pairs in slot order, read
with overwrite semantics, is last-occurrence lookup shifted by the starting
offset. -/
theorem lookupLast_enumPairs (off : Nat) (l : List String) (name : String) :
    lookupLast (enumPairs off l) name = (lastIdxOf? name l).map (· + off) := by
  induction l generalizing off with
  | nil => rfl
  | cons n rest ih =>
    simp only [enumPairs, lookupLast, ih (off + 1), lastIdxOf?]
    cases hrest : lastIdxOf? name rest with
    | some r =>
      simp only [Option.map_some']
      congr 1
      omega
    | none =>
      by_cases h : n == name
      · simp [h]
      · simp [h]

/-- The scan returns the sentinel `-1` exactly when no transmission in the
list carries the name. -/
theorem findIndexByName_eq_neg_one_iff (off : Nat) (l : List Transmission) (name : String) :
    findIndexByName off l name = -1 ↔ ∀ t ∈ l, t.name_ ≠ name := by
  induction l generalizing off with
  | nil => simp [findIndexByName]
  | cons t rest ih =>
    simp only [findIndexByName]
    by_cases h : t.name_ = name
    · rw [if_pos h]
      constructor
      · intro habs
        exfalso
        have h0 : (0 : Int) ≤ Int.ofNat off := Int.ofNat_nonneg off
        omega
      · intro hall
        exact absurd h (hall t (List.mem_cons_self _ _))
    · rw [if_neg h, ih (off + 1)]
      constructor
      · intro hall t' ht'
        rcases List.mem_cons.mp ht' with rfl | htail
        · exact h
        · exact hall t' htail
      · intro hall t' ht'
        exact hall t' (List.mem_cons_of_mem _ ht')

/-- The scan returns the offset-shifted position of the first matching
transmission. -/
theorem findIndexByName_first_match (off : Nat) (l : List Transmission) (name : String)
    (k : Nat) (hk : k < l.length) (hm : (l.getD k default).name_ = name)
    (hf : ∀ j, j < l.length → j < k → (l.getD j default).name_ ≠ name) :
    findIndexByName off l name = Int.ofNat (off + k) := by
  induction l generalizing off k with
  | nil => simp at hk
  | cons t rest ih =>
    simp only [findIndexByName]
    cases k with
    | zero =>
      rw [if_pos (by simpa using hm)]
      simp
    | succ k' =>
      have hhead : t.name_ ≠ name := by simpa using hf 0 (by omega) (by omega)
      rw [if_neg hhead]
      have hf' : ∀ j, j < rest.length → j < k' → (rest.getD j default).name_ ≠ name := by
        intro j hj hjk
        simpa using hf (j + 1) (by simpa using Nat.succ_lt_succ hj) (by omega)
      rw [ih (off + 1) k' (by simpa using hk) (by simpa using hm) hf']
      congr 1
      omega

/-- A non-sentinel scan result is an in-range index whose transmission
carries the name. -/
theorem findIndexByName_nonneg (off : Nat) (l : List Transmission) (name : String)
    (h : findIndexByName off l name ≠ -1) :
    ∃ k, k < l.length ∧ findIndexByName off l name = Int.ofNat (off + k) ∧
      (l.getD k default).name_ = name := by
  induction l generalizing off with
  | nil => exact absurd rfl h
  | cons t rest ih =>
    by_cases hh : t.name_ = name
    · exact ⟨0, by simp, by simp [findIndexByName, hh], by simpa using hh⟩
    · have h' : findIndexByName (off + 1) rest name ≠ -1 := by
        simpa [findIndexByName, hh] using h
      obtain ⟨k, hk, heq, hm⟩ := ih (off + 1) h'
      refine ⟨k + 1, by simpa using Nat.succ_lt_succ hk, ?_, by simpa using hm⟩
      rw [findIndexByName, if_neg hh, heq]
      congr 1
      omega

/-- Inversion of the `RobotState` constructor: a successfully built aggregate
is exactly the record the constructor loops assemble. -/
theorem RobotState.build_eq (model : Robot) (rs : RobotState)
    (hb : RobotState.build model = some rs) :
    ∃ tin, buildTransIn model model.transmissions_ = some tin ∧
      rs = { model_ := model
           , joint_states_ := (flatJointNames model).map (fun n =>
               { defaultJointState with joint_ := model.robot_model_.getJoint n })
           , transmissions_in_ := tin
           , transmissions_out_ := outIndices 0 model.transmissions_
           , joint_states_map_ := enumPairs 0 (flatJointNames model) } := by
  rw [RobotState.build] at hb
  cases htin : buildTransIn model model.transmissions_ with
  | none =>
    rw [htin] at hb
    exact absurd hb (by simp)
  | some tin =>
    rw [htin] at hb
    simp only [Option.some.injEq] at hb
    exact ⟨tin, rfl, hb.symm⟩

/-- On a built aggregate, `getJointState` is last-occurrence lookup over the
flattened declared joint names. -/
theorem getJointState_built (model : Robot) (rs : RobotState)
    (hb : RobotState.build model = some rs) (nm : String) (k : Nat) :
    rs.getJointState nm = some k ↔
      k < (flatJointNames model).length ∧ (flatJointNames model).getD k "" = nm ∧
        ∀ j, j < (flatJointNames model).length → k < j →
          (flatJointNames model).getD j "" ≠ nm := by
  obtain ⟨tin, htin, heq⟩ := RobotState.build_eq model rs hb
  subst heq
  show lookupLast (enumPairs 0 (flatJointNames model)) nm = some k ↔ _
  rw [lookupLast_enumPairs]
  have hmap : (lastIdxOf? nm (flatJointNames model)).map (· + 0) =
      lastIdxOf? nm (flatJointNames model) := by
    cases lastIdxOf? nm (flatJointNames model) <;> simp
  rw [hmap, lastIdxOf?_eq_some]

/-- C8: `getTransmissionIndex` returns the sentinel `-1` exactly when no
transmission in the list has the given name; otherwise it returns a
non-negative in-range index and `getTransmission` returns the transmission
stored at that index, while on the sentinel `getTransmission` returns
null. -/
theorem getTransmissionIndex_sentinel_spec (r : Robot) (name : String) :
    (r.getTransmissionIndex name = -1 ↔ ∀ t ∈ r.transmissions_, t.name_ ≠ name) ∧
    (r.getTransmissionIndex name = -1 → r.getTransmission name = none) ∧
    (r.getTransmissionIndex name ≠ -1 →
      0 ≤ r.getTransmissionIndex name ∧
      (r.getTransmissionIndex name).toNat < r.transmissions_.length ∧
      r.getTransmission name =
        some (r.transmissions_.getD (r.getTransmissionIndex name).toNat default)) := by
  refine ⟨findIndexByName_eq_neg_one_iff 0 r.transmissions_ name, ?_, ?_⟩
  · intro h
    simp only [Robot.getTransmission, Robot.getTransmissionIndex] at *
    rw [h]
    norm_num
  · intro h
    obtain ⟨k, hk, heq, _⟩ := findIndexByName_nonneg 0 r.transmissions_ name h
    have heq' : r.getTransmissionIndex name = Int.ofNat k := by
      simpa using heq
    refine ⟨by rw [heq']; exact Int.ofNat_nonneg k, by rw [heq']; simpa using hk, ?_⟩
    simp only [Robot.getTransmission, heq']
    norm_num

/-- C10: when the transmission at index i is the first with the given name,
`getTransmissionIndex` returns i and `getTransmission` returns that first
matching transmission even if later transmissions share the name; by
contrast the joint-state name map of a built aggregate only ever resolves a
name to its last declared slot. -/
theorem getTransmissionIndex_first_match_wins (r : Robot) (name : String) (i : Nat)
    (hi : i < r.transmissions_.length)
    (hm : (r.transmissions_.getD i default).name_ = name)
    (hf : ∀ j, j < r.transmissions_.length → j < i →
      (r.transmissions_.getD j default).name_ ≠ name) :
    r.getTransmissionIndex name = Int.ofNat i ∧
    r.getTransmission name = some (r.transmissions_.getD i default) ∧
    (∀ rs : RobotState, RobotState.build r = some rs →
      ∀ nm k, rs.getJointState nm = some k →
        ∀ j, j < (flatJointNames r).length → k < j →
          (flatJointNames r).getD j "" ≠ nm) := by
  have hidx : r.getTransmissionIndex name = Int.ofNat i := by
    have := findIndexByName_first_match 0 r.transmissions_ name i hi hm hf
    simpa using this
  refine ⟨hidx, ?_, ?_⟩
  · simp only [Robot.getTransmission, hidx]
    norm_num
  · intro rs hb nm k hk
    exact ((getJointState_built r rs hb nm k).mp hk).2.2

/-- Resolving a transmission's actuator names yields one actuator reference
per declared name. -/
theorem resolveActuators_length (r : Robot) (ns : List String) (as : List Actuator)
    (h : resolveActuators r ns = some as) : as.length = ns.length := by
  induction ns generalizing as with
  | nil =>
    simp only [resolveActuators, Option.some.injEq] at h
    simp [← h]
  | cons n rest ih =>
    rw [resolveActuators] at h
    cases hga : r.getActuator n with
    | none => rw [hga] at h; simp at h
    | some a =>
      rw [hga] at h
      cases hrec : resolveActuators r rest with
      | none => rw [hrec] at h; simp at h
      | some as' =>
        rw [hrec] at h
        simp only [Option.map_some', Option.some.injEq] at h
        subst h
        simp [ih as' hrec]

/-- The in-wiring table has one row per transmission. -/
theorem buildTransIn_length (r : Robot) (ts : List Transmission)
    (tin : List (List Actuator)) (h : buildTransIn r ts = some tin) :
    tin.length = ts.length := by
  induction ts generalizing tin with
  | nil =>
    simp only [buildTransIn, Option.some.injEq] at h
    simp [← h]
  | cons t rest ih =>
    rw [buildTransIn] at h
    cases hra : resolveActuators r t.actuator_names_ with
    | none => rw [hra] at h; simp at h
    | some as =>
      rw [hra] at h
      cases hrec : buildTransIn r rest with
      | none => rw [hrec] at h; simp at h
      | some tin' =>
        rw [hrec] at h
        simp only [Option.map_some', Option.some.injEq] at h
        subst h
        simp [ih tin' hrec]

/-- Row i of the in-wiring table has exactly as many entries as transmission
i declares actuator names. -/
theorem buildTransIn_row (r : Robot) (ts : List Transmission)
    (tin : List (List Actuator)) (h : buildTransIn r ts = some tin) :
    ∀ i, i < ts.length →
      (tin.getD i []).length = (ts.getD i default).actuator_names_.length := by
  induction ts generalizing tin with
  | nil => intro i hi; simp at hi
  | cons t rest ih =>
    rw [buildTransIn] at h
    cases hra : resolveActuators r t.actuator_names_ with
    | none => rw [hra] at h; simp at h
    | some as =>
      rw [hra] at h
      cases hrec : buildTransIn r rest with
      | none => rw [hrec] at h; simp at h
      | some tin' =>
        rw [hrec] at h
        simp only [Option.map_some', Option.some.injEq] at h
        subst h
        intro i hi
        cases i with
        | zero => simpa using resolveActuators_length r t.actuator_names_ as hra
        | succ i' => simpa using ih tin' hrec i' (by simpa using hi)

/-- The out-wiring table has one row per transmission. -/
theorem outIndices_length (off : Nat) (ts : List Transmission) :
    (outIndices off ts).length = ts.length := by
  induction ts generalizing off with
  | nil => rfl
  | cons t rest ih => simp [outIndices, ih]

/-- Row i of the out-wiring table has exactly as many entries as transmission
i declares joint names. -/
theorem outIndices_row (off : Nat) (ts : List Transmission) :
    ∀ i, i < ts.length →
      ((outIndices off ts).getD i []).length = (ts.getD i default).joint_names_.length := by
  induction ts generalizing off with
  | nil => intro i hi; simp at hi
  | cons t rest ih =>
    intro i hi
    cases i with
    | zero => simp [outIndices]
    | succ i' =>
      simpa [outIndices] using ih (off + t.joint_names_.length) i' (by simpa using hi)

/-- The flattened declared joint-name list has the summed declared joint
count as its length. -/
theorem flatJointNames_length (model : Robot) :
    (flatJointNames model).length =
      (model.transmissions_.map (·.joint_names_.length)).sum := by
  simp [flatJointNames, List.flatMap_def, List.length_flatten, List.map_map,
    Function.comp_def]

/-- Indexing a mapped list below its length applies the function to the
indexed element. -/
theorem getD_map_of_lt (f : String → JointState) (l : List String) (k : Nat)
    (hk : k < l.length) (d : JointState) :
    (l.map f).getD k d = f (l.getD k "") := by
  induction l generalizing k with
  | nil => simp at hk
  | cons n rest ih =>
    cases k with
    | zero => simp
    | succ k' => simpa using ih k' (by simpa using hk)

/-- C3: on a successfully built aggregate, both wiring tables have exactly
one row per transmission, row i of `transmissions_in_` has as many entries
as transmission i declares actuator names, and row i of `transmissions_out_`
has as many entries as transmission i declares joint names. -/
theorem robotState_wiring_table_sizes (model : Robot) (rs : RobotState)
    (hb : RobotState.build model = some rs) :
    rs.transmissions_in_.length = model.transmissions_.length ∧
    rs.transmissions_out_.length = model.transmissions_.length ∧
    (∀ i, i < model.transmissions_.length →
      (rs.transmissions_in_.getD i []).length =
        (model.transmissions_.getD i default).actuator_names_.length) ∧
    (∀ i, i < model.transmissions_.length →
      (rs.transmissions_out_.getD i []).length =
        (model.transmissions_.getD i default).joint_names_.length) := by
  obtain ⟨tin, htin, heq⟩ := RobotState.build_eq model rs hb
  subst heq
  exact ⟨buildTransIn_length model model.transmissions_ tin htin,
    outIndices_length 0 model.transmissions_,
    buildTransIn_row model model.transmissions_ tin htin,
    outIndices_row 0 model.transmissions_⟩

/-- C4: on a successfully built aggregate, the joint-state list length is the
sum over all transmissions of their declared joint counts; slot k is backed
by the k-th name of the flattened declaration order (so colliding names get
separate slots, one per declaring transmission); and the name map resolves a
name exactly to the slot of its last declaration. -/
theorem robotState_joint_state_slots (model : Robot) (rs : RobotState)
    (hb : RobotState.build model = some rs) :
    rs.joint_states_.length = (model.transmissions_.map (·.joint_names_.length)).sum ∧
    (∀ k, k < (flatJointNames model).length →
      (rs.joint_states_.getD k defaultJointState).joint_ =
        model.robot_model_.getJoint ((flatJointNames model).getD k "")) ∧
    (∀ nm k, rs.getJointState nm = some k ↔
      (k < (flatJointNames model).length ∧ (flatJointNames model).getD k "" = nm ∧
        ∀ j, j < (flatJointNames model).length → k < j →
          (flatJointNames model).getD j "" ≠ nm)) := by
  refine ⟨?_, ?_, fun nm k => getJointState_built model rs hb nm k⟩
  · obtain ⟨tin, htin, heq⟩ := RobotState.build_eq model rs hb
    subst heq
    simpa using flatJointNames_length model
  · obtain ⟨tin, htin, heq⟩ := RobotState.build_eq model rs hb
    subst heq
    intro k hk
    show (((flatJointNames model).map (fun n =>
        { defaultJointState with joint_ := model.robot_model_.getJoint n })).getD k
          defaultJointState).joint_ = _
    rw [getD_map_of_lt _ _ k hk]

/-- C5: on a successfully built aggregate, `getJointState` returns a slot
exactly when some transmission declared the joint name, and returns the null
sentinel for a name no transmission declared. -/
theorem getJointState_some_iff_declared (model : Robot) (rs : RobotState)
    (hb : RobotState.build model = some rs) (name : String) :
    ((rs.getJointState name).isSome = true ↔
      ∃ t ∈ model.transmissions_, name ∈ t.joint_names_) ∧
    ((∀ t ∈ model.transmissions_, name ∉ t.joint_names_) →
      rs.getJointState name = none) := by
  obtain ⟨tin, htin, heq⟩ := RobotState.build_eq model rs hb
  subst heq
  have hshow : ∀ nm, RobotState.getJointState
      { model_ := model
      , joint_states_ := (flatJointNames model).map (fun n =>
          { defaultJointState with joint_ := model.robot_model_.getJoint n })
      , transmissions_in_ := tin
      , transmissions_out_ := outIndices 0 model.transmissions_
      , joint_states_map_ := enumPairs 0 (flatJointNames model) } nm =
      lastIdxOf? nm (flatJointNames model) := by
    intro nm
    show lookupLast (enumPairs 0 (flatJointNames model)) nm = _
    rw [lookupLast_enumPairs]
    cases lastIdxOf? nm (flatJointNames model) <;> simp
  constructor
  · rw [hshow name]
    rw [← List.mem_flatMap (f := fun t : Transmission => t.joint_names_)]
    constructor
    · intro hsome
      by_contra hnm
      rw [(lastIdxOf?_eq_none name (flatJointNames model)).mpr hnm] at hsome
      simp at hsome
    · intro hmem
      cases hl : lastIdxOf? name (flatJointNames model) with
      | none =>
        exact absurd (show name ∈ flatJointNames model from hmem)
          ((lastIdxOf?_eq_none name (flatJointNames model)).mp hl)
      | some k => simp
  · intro hnone
    rw [hshow name]
    apply (lastIdxOf?_eq_none name (flatJointNames model)).mpr
    intro hmem
    obtain ⟨t, ht, hin⟩ := List.mem_flatMap.mp hmem
    exact hnone t ht hin

/-- C6: `isHalted` is true exactly when some actuator bound in some wiring
row has its halted flag set, and a built aggregate with zero transmissions
(hence zero bound actuators) is never halted. -/
theorem isHalted_iff_some_bound_actuator_halted (model : Robot) (rs : RobotState)
    (hb : RobotState.build model = some rs) :
    (rs.isHalted = true ↔
      ∃ row ∈ rs.transmissions_in_, ∃ a ∈ row, a.state_.halted_ = true) ∧
    (model.transmissions_ = [] → rs.isHalted = false) := by
  constructor
  · simp [RobotState.isHalted, List.any_eq_true]
  · intro hnil
    obtain ⟨tin, htin, heq⟩ := RobotState.build_eq model rs hb
    subst heq
    rw [hnil] at htin
    simp only [buildTransIn, Option.some.injEq] at htin
    show tin.any _ = false
    rw [← htin]
    rfl

/-- C7: `zeroCommands` sets every joint state's commanded effort to zero and
changes nothing else: all other joint-state fields, both wiring tables, the
name map and the backing model are untouched. -/
theorem zeroCommands_only_zeroes_commanded_effort (rs : RobotState) :
    (rs.zeroCommands).joint_states_.length = rs.joint_states_.length ∧
    (rs.zeroCommands).joint_states_.map (·.commanded_effort_) =
      List.replicate rs.joint_states_.length 0 ∧
    (rs.zeroCommands).joint_states_.map (·.joint_) = rs.joint_states_.map (·.joint_) ∧
    (rs.zeroCommands).joint_states_.map (·.position_) =
      rs.joint_states_.map (·.position_) ∧
    (rs.zeroCommands).joint_states_.map (·.velocity_) =
      rs.joint_states_.map (·.velocity_) ∧
    (rs.zeroCommands).joint_states_.map (·.measured_effort_) =
      rs.joint_states_.map (·.measured_effort_) ∧
    (rs.zeroCommands).joint_states_.map (·.joint_statistics_) =
      rs.joint_states_.map (·.joint_statistics_) ∧
    (rs.zeroCommands).transmissions_in_ = rs.transmissions_in_ ∧
    (rs.zeroCommands).transmissions_out_ = rs.transmissions_out_ ∧
    (rs.zeroCommands).joint_states_map_ = rs.joint_states_map_ ∧
    (rs.zeroCommands).model_ = rs.model_ := by
  refine ⟨by simp [RobotState.zeroCommands], ?_, ?_, ?_, ?_, ?_, ?_, rfl, rfl, rfl, rfl⟩
  · simp [RobotState.zeroCommands, List.map_map, Function.comp_def, List.map_const']
  · simp [RobotState.zeroCommands, List.map_map, Function.comp_def]
  · simp [RobotState.zeroCommands, List.map_map, Function.comp_def]
  · simp [RobotState.zeroCommands, List.map_map, Function.comp_def]
  · simp [RobotState.zeroCommands, List.map_map, Function.comp_def]
  · simp [RobotState.zeroCommands, List.map_map, Function.comp_def]

/-- Instantiation of the unresolvable-type theorem on a one-element document
whose type string throws. -/
theorem initXml_unresolvable_type_aborts_witness :
    initFailed (Robot.initXml throwingLoader (some sampleHw) badRoot) = true ∧
    initErrorType (Robot.initXml throwingLoader (some sampleHw) badRoot) =
      firstThrowingType throwingLoader badRoot.transmissionElems ∧
    (firstThrowingType throwingLoader badRoot.transmissionElems).isSome = true :=
  initXml_unresolvable_type_aborts throwingLoader sampleHw badRoot sampleUrdf rfl
    ⟨⟨some "badtype", 0⟩, by decide, "badtype", rfl, rfl⟩

/-- Instantiation of the skip-on-config-failure theorem: the middle element's
instance fails its own configuration parsing, the build still succeeds, and
exactly the two well-configured transmissions survive. -/
theorem initXml_skips_failed_transmission_config_witness :
    Robot.initXml mixedLoader (some sampleHw) mixedRoot =
      .ok { hw_ := some sampleHw, robot_model_ := sampleUrdf
          , transmissions_ := keptTransmissions mixedLoader mixedRoot.transmissionElems } ∧
    keptTransmissions mixedLoader mixedRoot.transmissionElems =
      [⟨"transA", ["act1"], ["joint1"]⟩, ⟨"transA", ["act1"], ["joint1"]⟩] :=
  ⟨initXml_skips_failed_transmission_config mixedLoader sampleHw mixedRoot sampleUrdf rfl
    (by
      intro e he s hs
      fin_cases he <;>
        · injection hs with hs
          subst hs
          decide),
   by decide⟩

/-- Instantiation of the wiring-size theorem on the two-transmission robot. -/
theorem robotState_wiring_table_sizes_witness :
    RobotState.build sampleRobot = some sampleState ∧
    sampleState.transmissions_in_.length = sampleRobot.transmissions_.length ∧
    sampleState.transmissions_out_.length = sampleRobot.transmissions_.length ∧
    (sampleState.transmissions_in_.getD 1 []).length =
      (sampleRobot.transmissions_.getD 1 default).actuator_names_.length ∧
    (sampleState.transmissions_out_.getD 1 []).length =
      (sampleRobot.transmissions_.getD 1 default).joint_names_.length := by
  have hb : RobotState.build sampleRobot = some sampleState := by decide
  have h := robotState_wiring_table_sizes sampleRobot sampleState hb
  exact ⟨hb, h.1, h.2.1, h.2.2.1 1 (by decide), h.2.2.2 1 (by decide)⟩

/-- Instantiation of the joint-slot theorem: `joint1` is declared by both
transmissions, gets the two slots 0 and 2, and the name map resolves it to
the later slot 2. -/
theorem robotState_joint_state_slots_witness :
    RobotState.build sampleRobot = some sampleState ∧
    sampleState.joint_states_.length =
      (sampleRobot.transmissions_.map (·.joint_names_.length)).sum ∧
    (sampleState.joint_states_.getD 2 defaultJointState).joint_ =
      sampleRobot.robot_model_.getJoint ((flatJointNames sampleRobot).getD 2 "") ∧
    sampleState.getJointState "joint1" = some 2 := by
  have hb : RobotState.build sampleRobot = some sampleState := by decide
  have h := robotState_joint_state_slots sampleRobot sampleState hb
  refine ⟨hb, h.1, h.2.1 2 (by decide), ?_⟩
  exact (h.2.2 "joint1" 2).mpr ⟨by decide, by decide, by decide⟩

/-- Instantiation of the lookup theorem: a declared joint name resolves to a
slot, an undeclared one to the null sentinel. -/
theorem getJointState_some_iff_declared_witness :
    RobotState.build sampleRobot = some sampleState ∧
    (sampleState.getJointState "joint1").isSome = true ∧
    sampleState.getJointState "nojoint" = none := by
  have hb : RobotState.build sampleRobot = some sampleState := by decide
  refine ⟨hb, ?_, ?_⟩
  · exact (getJointState_some_iff_declared sampleRobot sampleState hb "joint1").1.mpr
      ⟨⟨"transA", ["act1"], ["joint1"]⟩, by decide, by decide⟩
  · exact (getJointState_some_iff_declared sampleRobot sampleState hb "nojoint").2
      (by decide)

/-- Instantiation of the halted theorem: the sample robot binds the halted
`act2`, so it reports halted; the zero-transmission robot never does. -/
theorem isHalted_iff_some_bound_actuator_halted_witness :
    RobotState.build sampleRobot = some sampleState ∧ sampleState.isHalted = true ∧
    RobotState.build emptyRobot = some emptyState ∧ emptyState.isHalted = false := by
  have hb : RobotState.build sampleRobot = some sampleState := by decide
  have hbe : RobotState.build emptyRobot = some emptyState := by decide
  refine ⟨hb, ?_, hbe, ?_⟩
  · exact (isHalted_iff_some_bound_actuator_halted sampleRobot sampleState hb).1.mpr
      ⟨[⟨"act2", ⟨true, 0, 0⟩⟩], by decide, ⟨"act2", ⟨true, 0, 0⟩⟩, by decide, rfl⟩
  · exact (isHalted_iff_some_bound_actuator_halted emptyRobot emptyState hbe).2 rfl

/-- Instantiation of the sentinel theorem: an absent name yields `-1` and a
null transmission, a present one a valid index and the stored transmission. -/
theorem getTransmissionIndex_sentinel_spec_witness :
    sampleRobot.getTransmissionIndex "none_such" = -1 ∧
    sampleRobot.getTransmission "none_such" = none ∧
    (0 ≤ sampleRobot.getTransmissionIndex "transB" ∧
      (sampleRobot.getTransmissionIndex "transB").toNat <
        sampleRobot.transmissions_.length ∧
      sampleRobot.getTransmission "transB" =
        some (sampleRobot.transmissions_.getD
          (sampleRobot.getTransmissionIndex "transB").toNat default)) := by
  have h := getTransmissionIndex_sentinel_spec sampleRobot "none_such"
  have hmiss : sampleRobot.getTransmissionIndex "none_such" = -1 :=
    h.1.mpr (by decide)
  exact ⟨hmiss, h.2.1 hmiss,
    (getTransmissionIndex_sentinel_spec sampleRobot "transB").2.2 (by decide)⟩

/-- Instantiation of the first-match theorem on a robot whose two
transmissions share the name `dup`: the lookup returns index 0 and the first
transmission. -/
theorem getTransmissionIndex_first_match_wins_witness :
    dupRobot.getTransmissionIndex "dup" = Int.ofNat 0 ∧
    dupRobot.getTransmission "dup" = some (dupRobot.transmissions_.getD 0 default) := by
  have h := getTransmissionIndex_first_match_wins dupRobot "dup" 0 (by decide) rfl
    (by intro j hj h0; omega)
  exact ⟨h.1, h.2.1⟩

end Pr2MechanismModel
